import Mathlib

/-!
Verification of the sql-scenario test helpers (src/unnamed/part_000).

The development shallowly embeds the JavaScript module:
* JS values that matter here are modelled by `JSVal` (undefined or a string);
* JS objects are association lists with literal/spread semantics (`Obj`,
  `objSet`, `objSpread`), own properties only;
* the context-map resolution of `buildTestSqlScenario` (lines 187-202) and
  `buildDescribeSqlScenario` (lines 244-257);
* the sql executor `executeSql` (lines 28-161), with the external sql
  normalizer (node-sql-parser astify/sqlify), the file system and the
  database channel supplied as oracle functions;
* the setup / body / teardown control flow of the generated test bodies
  (lines 205-218).
-/

/-- JS values relevant to the module: `undefined` or a string. -/
inductive JSVal where
  | undefined : JSVal
  | str : String → JSVal
deriving DecidableEq

/-- JS truthiness for `JSVal`: `undefined` is falsy, a string is truthy iff nonempty. -/
def JSVal.truthy : JSVal → Bool
  | .undefined => false
  | .str s => s != ""

/-- JS string coercion (only the string branch is ever reached on truthy values). -/
def JSVal.toStr : JSVal → String
  | .undefined => "undefined"
  | .str s => s

/-- A JS object: an association list of own properties in insertion order. -/
abbrev Obj := List (String × JSVal)

/-- Does the object have an own property named `k`? -/
def objHas : Obj → String → Bool
  | [], _ => false
  | p :: rest, k => if p.1 = k then true else objHas rest k

/-- JS property write: overwrite in place if present, else append (insertion order). -/
def objSet (m : Obj) (k : String) (v : JSVal) : Obj :=
  if objHas m k then m.map (fun p => if p.1 = k then (k, v) else p) else m ++ [(k, v)]

/-- JS object spread `\x7b ...dst, ...src \x7d` restricted to own properties:
write every property of `src` into `dst` in order, later writes winning. -/
def objSpread (dst src : Obj) : Obj := src.foldl (fun acc p => objSet acc p.1 p.2) dst

/-- First binding of `k`, if any (objects built by literals/spreads have unique keys). -/
def objGet : Obj → String → Option JSVal
  | [], _ => none
  | p :: rest, k => if p.1 = k then some p.2 else objGet rest k

/-- JS property read `m[k]`: the binding if present, else `undefined`. -/
def jsIndex (m : Obj) (k : String) : JSVal := (objGet m k).getD .undefined

/-- Keys are pairwise distinct (holds for every object built by JS literals/spreads). -/
def objNodupB : Obj → Bool
  | [] => true
  | p :: rest => (!objHas rest p.1) && objNodupB rest

/-- JS `v || d` for environment strings: the fallback is used when unset or empty. -/
def envOr (v : Option String) (d : String) : String :=
  match v with
  | some s => if s = "" then d else s
  | none => d

/-- Lines 14-17: the process-wide default context map, seeded from two
environment variables with literal fallbacks. `e1`/`e2` model
`process.env.TEST_DATABASE_DBNAME` / `process.env.DISTRICT_TEST_DATABASE_DBNAME`. -/
def startingContext (e1 e2 : Option String) : Obj :=
  [("TEST_DATABASE_DBNAME", JSVal.str (envOr e1 "am_admin_test")),
   ("DISTRICT_TEST_DATABASE_DBNAME", JSVal.str (envOr e2 "amd_district_test"))]

/-- Lines 190-196: the effective context map of a 5-argument test-scoped call.
The source tests `providedMap.describeBlockName` for truthiness: if truthy the
provided map is used verbatim, otherwise a fresh merge of the defaults overlaid
with the provided map is built. -/
def resolveTestContext (e1 e2 : Option String) (providedMap : Obj) : Obj :=
  if (jsIndex providedMap "describeBlockName").truthy then providedMap
  else objSpread (objSpread [] (startingContext e1 e2)) providedMap

/-- Line 245: `const blockContext = \x7b describeBlockName: describeBlockName \x7d`.
At this point of the source the variable `describeBlockName` is declared (line
233) but not yet assigned - the destructuring that assigns it runs only at line
248 or 252 - so the captured value is `undefined`, whatever the block name is. -/
def blockContext : Obj := [("describeBlockName", JSVal.undefined)]

/-- Lines 245-250: the effective context map of a 5-argument group-scoped call:
`\x7b ...blockContext, ...startingContext, ...providedMap \x7d`. -/
def resolveDescribeContext5 (e1 e2 : Option String) (providedMap : Obj) : Obj :=
  objSpread (objSpread (objSpread [] blockContext) (startingContext e1 e2)) providedMap

/-- Lines 245, 252-254: the effective context map of a 4-argument group-scoped
call: `\x7b ...blockContext, ...startingContext \x7d`. -/
def resolveDescribeContext4 (e1 e2 : Option String) : Obj :=
  objSpread (objSpread [] blockContext) (startingContext e1 e2)

/-- The `string | string[]` argument of `executeSql`; array entries (and the
single string) may be null, modelled by `Option`. -/
inductive Commands where
  | single : Option String → Commands
  | many : List (Option String) → Commands
deriving DecidableEq

/-- A positional argument of a scenario helper call. -/
inductive Arg where
  | str : String → Arg
  | obj : Obj → Arg
  | sqls : Commands → Arg
  | fn : Arg
deriving DecidableEq

/-- Destructuring a positional slot as a string. -/
def Arg.asStr : Arg → String
  | .str s => s
  | _ => ""

/-- Destructuring a positional slot as an object. -/
def Arg.asObj : Arg → Obj
  | .obj m => m
  | _ => []

/-- Destructuring a positional slot as `string | string[]`. -/
def Arg.asCommands : Arg → Commands
  | .sqls c => c
  | _ => .single none

/-- What a successful test-scoped dispatch (lines 187-202) binds before
building the jest test. -/
structure TestReg where
  testName : String
  contextMap : Obj
  sqlSetup : Commands
  sqlTeardown : Commands
deriving DecidableEq

/-- What a successful group-scoped dispatch (lines 244-257) binds before
building the jest describe block. -/
structure DescribeReg where
  describeBlockName : String
  contextMap : Obj
  sqlSetup : Commands
  sqlTeardown : Commands
deriving DecidableEq

/-- Lines 187-202: argument dispatch of the test-scoped helpers.
`stringify` models `JSON.stringify`. -/
def buildTestSqlScenarioArgs (treatAsFiles : Bool) (e1 e2 : Option String)
    (stringify : List Arg → String) (args : List Arg) : Except String TestReg :=
  match args with
  | [a1, a2, a3, a4, _a5] =>
      Except.ok { testName := a1.asStr,
                  contextMap := resolveTestContext e1 e2 a2.asObj,
                  sqlSetup := a3.asCommands, sqlTeardown := a4.asCommands }
  | [a1, a2, a3, _a4] =>
      Except.ok { testName := a1.asStr,
                  contextMap := objSpread [] (startingContext e1 e2),
                  sqlSetup := a2.asCommands, sqlTeardown := a3.asCommands }
  | _ =>
      Except.error ("parameter mismatch in sql" ++ (if treatAsFiles then "File" else "")
        ++ "Scenario(): " ++ stringify args)

/-- Lines 244-257: argument dispatch of the group-scoped helpers.
The context map injects `blockContext`, whose group-name value is `undefined`
(see `blockContext`). -/
def buildDescribeSqlScenarioArgs (treatAsFiles : Bool) (e1 e2 : Option String)
    (stringify : List Arg → String) (args : List Arg) : Except String DescribeReg :=
  match args with
  | [a1, a2, a3, a4, _a5] =>
      Except.ok { describeBlockName := a1.asStr,
                  contextMap := resolveDescribeContext5 e1 e2 a2.asObj,
                  sqlSetup := a3.asCommands, sqlTeardown := a4.asCommands }
  | [a1, a2, a3, _a4] =>
      Except.ok { describeBlockName := a1.asStr,
                  contextMap := resolveDescribeContext4 e1 e2,
                  sqlSetup := a2.asCommands, sqlTeardown := a3.asCommands }
  | _ =>
      Except.error ("parameter mismatch in describeSql" ++ (if treatAsFiles then "File" else "")
        ++ "Scenario(): " ++ stringify args)

/-! Basic lemmas about the object model. -/

theorem objGet_eq_none_of_not_has (m : Obj) (k : String) (h : objHas m k = false) :
    objGet m k = none := by
  induction m with
  | nil => rfl
  | cons p rest ih =>
    by_cases hp : p.1 = k
    · simp [objHas, hp] at h
    · simp only [objHas, if_neg hp] at h
      simp only [objGet, if_neg hp]
      exact ih h

theorem objGet_append (m1 m2 : Obj) (k : String) :
    objGet (m1 ++ m2) k = (objGet m1 k).orElse (fun _ => objGet m2 k) := by
  induction m1 with
  | nil => simp [objGet, Option.orElse]
  | cons p rest ih =>
    by_cases hp : p.1 = k
    · simp [objGet, hp, Option.orElse]
    · simp [objGet, hp, ih]

theorem objGet_overwrite_same (m : Obj) (k : String) (v : JSVal) :
    objGet (m.map (fun p => if p.1 = k then (k, v) else p)) k =
      if objHas m k then some v else none := by
  induction m with
  | nil => rfl
  | cons p rest ih =>
    by_cases hp : p.1 = k
    · simp [objGet, objHas, hp]
    · simp [objGet, objHas, hp, ih]

theorem objGet_overwrite_other (m : Obj) (k k' : String) (v : JSVal) (h : k' ≠ k) :
    objGet (m.map (fun p => if p.1 = k then (k, v) else p)) k' = objGet m k' := by
  induction m with
  | nil => rfl
  | cons p rest ih =>
    by_cases hp : p.1 = k
    · have h2 : ¬(k = k') := fun hh => h hh.symm
      have h3 : ¬(p.1 = k') := fun hh => h (by rw [← hh, hp])
      simp [objGet, hp, h2, h3, ih]
    · simp only [List.map_cons, if_neg hp, objGet]
      by_cases hq : p.1 = k'
      · simp [hq]
      · simp [hq, ih]

theorem objGet_objSet (m : Obj) (k k' : String) (v : JSVal) :
    objGet (objSet m k v) k' = if k' = k then some v else objGet m k' := by
  unfold objSet
  by_cases hhas : objHas m k
  · rw [if_pos hhas]
    by_cases hk : k' = k
    · subst hk
      rw [if_pos rfl, objGet_overwrite_same, if_pos hhas]
    · rw [if_neg hk, objGet_overwrite_other m k k' v hk]
  · simp only [Bool.not_eq_true] at hhas
    rw [if_neg (by simp [hhas]), objGet_append]
    by_cases hk : k' = k
    · subst hk
      rw [objGet_eq_none_of_not_has m k' hhas, if_pos rfl]
      simp [objGet, Option.orElse]
    · rw [if_neg hk]
      have hnone : objGet [(k, v)] k' = none := by
        simp [objGet]
        exact fun hh => hk hh.symm
      rw [hnone]
      cases objGet m k' <;> simp [Option.orElse]

theorem objGet_objSpread (dst : Obj) (src : Obj) (hsrc : objNodupB src = true) (k : String) :
    objGet (objSpread dst src) k =
      (objGet src k).orElse (fun _ => objGet dst k) := by
  induction src generalizing dst with
  | nil => simp [objSpread, objGet, Option.orElse]
  | cons p rest ih =>
    have hrest : objNodupB rest = true := by
      unfold objNodupB at hsrc
      exact (Bool.and_eq_true _ _ |>.mp hsrc).2
    have hnot : objHas rest p.1 = false := by
      unfold objNodupB at hsrc
      have := (Bool.and_eq_true _ _ |>.mp hsrc).1
      simpa using this
    show objGet (objSpread (objSet dst p.1 p.2) rest) k = _
    rw [ih _ hrest, objGet_objSet]
    by_cases hk : k = p.1
    · subst hk
      rw [objGet_eq_none_of_not_has rest p.1 hnot, if_pos rfl]
      simp [objGet, Option.orElse]
    · rw [if_neg hk]
      have hstep : objGet (p :: rest) k = objGet rest k := by
        have : ¬(p.1 = k) := fun hh => hk hh.symm
        simp [objGet, this]
      rw [hstep]

theorem objGet_objSpread_nil (src : Obj) (hsrc : objNodupB src = true) (k : String) :
    objGet (objSpread [] src) k = objGet src k := by
  rw [objGet_objSpread [] src hsrc k]
  cases h : objGet src k <;> simp [Option.orElse, objGet]

theorem startingContext_nodup (e1 e2 : Option String) :
    objNodupB (startingContext e1 e2) = true := by
  simp [startingContext, objNodupB, objHas]

/-! Claim theorems: context resolution and argument dispatch. -/

/-- C1 (counterexample): a caller-supplied mapping that contains the group-name
key `describeBlockName` with a falsy value (here the empty string) is NOT used
verbatim by a 5-argument test-scoped call: the source tests the key's
truthiness, not its presence, so this mapping is merged with the defaults. -/
theorem c1_presenceCounterexample :
    objHas [("describeBlockName", JSVal.str "")] "describeBlockName" = true ∧
    resolveTestContext none none [("describeBlockName", JSVal.str "")]
      ≠ [("describeBlockName", JSVal.str "")] := by
  constructor
  · decide
  · decide

/-- C1 (amended): in a 5-argument test-scoped call, if the caller-supplied
mapping's group-name key `describeBlockName` holds a truthy value then that
mapping is used verbatim (no merging); otherwise (key absent or value falsy)
the effective mapping is a fresh object equal to the default mapping overlaid
with the caller's mapping, caller keys winning on conflict. -/
theorem c1_testContextResolution (e1 e2 : Option String) (P : Obj)
    (hn : objNodupB P = true) :
    ((jsIndex P "describeBlockName").truthy = true →
      resolveTestContext e1 e2 P = P) ∧
    ((jsIndex P "describeBlockName").truthy = false →
      ∀ k, objGet (resolveTestContext e1 e2 P) k
        = (objGet P k).orElse (fun _ => objGet (startingContext e1 e2) k)) := by
  constructor
  · intro h
    simp [resolveTestContext, h]
  · intro h k
    simp only [resolveTestContext, h, Bool.false_eq_true, if_false]
    rw [objGet_objSpread _ _ hn k]
    simp only [objGet_objSpread_nil (startingContext e1 e2) (startingContext_nodup e1 e2)]

/-- C1 (witness): the amended resolution rule instantiated at the concrete
caller mapping containing only the key X. -/
theorem c1_testContextResolution_witness :
    objNodupB [("X", JSVal.str "y")] = true ∧
    (((jsIndex [("X", JSVal.str "y")] "describeBlockName").truthy = true →
        resolveTestContext none none [("X", JSVal.str "y")] = [("X", JSVal.str "y")]) ∧
     ((jsIndex [("X", JSVal.str "y")] "describeBlockName").truthy = false →
        ∀ k, objGet (resolveTestContext none none [("X", JSVal.str "y")]) k
          = (objGet [("X", JSVal.str "y")] k).orElse
              (fun _ => objGet (startingContext none none) k))) ∧
    (∀ k, objGet (resolveTestContext none none [("X", JSVal.str "y")]) k
       = (objGet [("X", JSVal.str "y")] k).orElse
           (fun _ => objGet (startingContext none none) k)) :=
  ⟨by decide, c1_testContextResolution none none [("X", JSVal.str "y")] (by decide),
   (c1_testContextResolution none none [("X", JSVal.str "y")] (by decide)).2 (by decide)⟩

/-- C2 (code bug): a 4-argument group-scoped call named G produces an effective
context mapping whose group-name key `describeBlockName` is bound to
`undefined`, not to the group's name G as the specification states: the source
builds `blockContext` from the variable `describeBlockName` before the
destructuring assignment gives that variable its value. -/
theorem c2_groupNameBoundToUndefined :
    (buildDescribeSqlScenarioArgs false none none (fun _ => "")
        [Arg.str "G", Arg.sqls (Commands.single none),
         Arg.sqls (Commands.single none), Arg.fn]).map
      (fun r => (r.describeBlockName, jsIndex r.contextMap "describeBlockName"))
      = Except.ok ("G", JSVal.undefined) ∧
    JSVal.undefined ≠ JSVal.str "G" := by
  constructor
  · rfl
  · decide

/-- C7: any call of a test-scoped or group-scoped helper with an argument count
other than 4 or 5 yields an error (no test or group registration, no SQL),
whose message names the helper family, sqlScenario or sqlFileScenario resp.
describeSqlScenario or describeSqlFileScenario, and echoes the stringified
received arguments. -/
theorem c7_parameterMismatch (treatAsFiles : Bool) (e1 e2 : Option String)
    (stringify : List Arg → String) (args : List Arg)
    (h4 : args.length ≠ 4) (h5 : args.length ≠ 5) :
    buildTestSqlScenarioArgs treatAsFiles e1 e2 stringify args
      = Except.error ("parameter mismatch in sql" ++ (if treatAsFiles then "File" else "")
          ++ "Scenario(): " ++ stringify args) ∧
    buildDescribeSqlScenarioArgs treatAsFiles e1 e2 stringify args
      = Except.error ("parameter mismatch in describeSql" ++ (if treatAsFiles then "File" else "")
          ++ "Scenario(): " ++ stringify args) := by
  rcases args with _ | ⟨a1, _ | ⟨a2, _ | ⟨a3, _ | ⟨a4, _ | ⟨a5, _ | ⟨a6, rest⟩⟩⟩⟩⟩⟩
  · exact ⟨rfl, rfl⟩
  · exact ⟨rfl, rfl⟩
  · exact ⟨rfl, rfl⟩
  · exact ⟨rfl, rfl⟩
  · exact absurd rfl h4
  · exact absurd rfl h5
  · exact ⟨rfl, rfl⟩

/-- C7 (witness): a concrete 3-argument call of both builders raises the
parameter-mismatch error. -/
theorem c7_parameterMismatch_witness :
    ([Arg.str "t", Arg.fn, Arg.fn] : List Arg).length ≠ 4 ∧
    ([Arg.str "t", Arg.fn, Arg.fn] : List Arg).length ≠ 5 ∧
    (buildTestSqlScenarioArgs false none none (fun _ => "ARGS")
        [Arg.str "t", Arg.fn, Arg.fn]
      = Except.error ("parameter mismatch in sql" ++ (if false then "File" else "")
          ++ "Scenario(): " ++ (fun (_ : List Arg) => "ARGS") [Arg.str "t", Arg.fn, Arg.fn]) ∧
     buildDescribeSqlScenarioArgs false none none (fun _ => "ARGS")
        [Arg.str "t", Arg.fn, Arg.fn]
      = Except.error ("parameter mismatch in describeSql" ++ (if false then "File" else "")
          ++ "Scenario(): " ++ (fun (_ : List Arg) => "ARGS") [Arg.str "t", Arg.fn, Arg.fn])) :=
  ⟨by decide, by decide,
   c7_parameterMismatch false none none (fun _ => "ARGS") [Arg.str "t", Arg.fn, Arg.fn]
     (by decide) (by decide)⟩

/-! Template substitution (lines 49-57 of the source). -/

/-- A character matched by the regex class `[A-Za-z0-9_]`. -/
def isIdentChar (c : Char) : Bool := c.isAlpha || c.isDigit || c = '_'

/-- Greedy match of `([A-Za-z0-9_]+)\x7d` at the head of `l`: the identifier and
the characters following the closing brace, if the pattern matches. -/
def takeIdent (l : List Char) : Option (String × List Char) :=
  match l.takeWhile isIdentChar with
  | [] => none
  | c :: cs =>
      match l.dropWhile isIdentChar with
      | '}' :: rest => some (String.mk (c :: cs), rest)
      | _ => none

/-- Replacement committed for one matched token `\x7bk\x7d`: the callback of the
source returns `contextMap[key] || \x60\x7b\x24\x7bkey\x7d\x7d\x60`, i.e. the
value when truthy, else the original token text. -/
def substTok (m : Obj) (k : String) : List Char :=
  if (jsIndex m k).truthy then (jsIndex m k).toStr.data
  else '{' :: (k.data ++ ['}'])

/-- Left-to-right scan of `replaceAll` with the global regex
`\\\x7b([A-Za-z0-9_]+)\x7d`: at each brace, try to match a token; on a match,
emit the replacement and continue after it, otherwise emit the character and
continue. `fuel` bounds recursion and is always called with the input length. -/
def replaceChars (m : Obj) : Nat → List Char → List Char
  | 0, l => l
  | _ + 1, [] => []
  | fuel + 1, c :: rest =>
    if c = '{' then
      match takeIdent rest with
      | some (k, rest') => substTok m k ++ replaceChars m fuel rest'
      | none => c :: replaceChars m fuel rest
    else c :: replaceChars m fuel rest

/-- Line 51: `line.replaceAll(/\\\x7b([A-Za-z0-9_]+)\x7d/g, ...)` on a string. -/
def replaceAllCtx (m : Obj) (s : String) : String :=
  String.mk (replaceChars m s.data.length s.data)

/-- Lines 50-56: one element of the mapped list. A null line short-circuits the
optional chaining and `modified || ''` coerces the result to the empty string;
for a string line the `|| ''` is the identity. -/
def replaceLine (m : Obj) (line : Option String) : String :=
  match line with
  | none => ""
  | some s => replaceAllCtx m s

/-- Lines 49-57: `replaceWithContext`, mapped over the lines. -/
def replaceWithContext (m : Obj) (lines : List (Option String)) : List String :=
  lines.map (replaceLine m)

theorem takeIdent_length (l : List Char) (k : String) (rest : List Char)
    (h : takeIdent l = some (k, rest)) : rest.length < l.length := by
  unfold takeIdent at h
  split at h
  · exact absurd h (by simp)
  · split at h
    · next r hdw =>
      cases h
      have hsplit : (l.takeWhile isIdentChar ++ l.dropWhile isIdentChar).length = l.length := by
        rw [List.takeWhile_append_dropWhile]
      rw [List.length_append, hdw] at hsplit
      simp only [List.length_cons] at hsplit
      omega
    · exact absurd h (by simp)

theorem replaceChars_irrel (m : Obj) : ∀ f1 f2 l, l.length ≤ f1 → l.length ≤ f2 →
    replaceChars m f1 l = replaceChars m f2 l := by
  intro f1
  induction f1 with
  | zero =>
    intro f2 l h1 _
    have hl : l = [] := List.eq_nil_of_length_eq_zero (Nat.le_zero.mp h1)
    subst hl
    cases f2 <;> rfl
  | succ f ih =>
    intro f2 l h1 h2
    cases l with
    | nil => cases f2 <;> rfl
    | cons c rest =>
      cases f2 with
      | zero => simp at h2
      | succ f2' =>
        have hr1 : rest.length ≤ f := by
          simp only [List.length_cons] at h1; omega
        have hr2 : rest.length ≤ f2' := by
          simp only [List.length_cons] at h2; omega
        simp only [replaceChars]
        by_cases hc : c = '{'
        · rw [if_pos hc, if_pos hc]
          cases ht : takeIdent rest with
          | none =>
            show c :: replaceChars m f rest = c :: replaceChars m f2' rest
            rw [ih f2' rest hr1 hr2]
          | some pr =>
            obtain ⟨k, rest'⟩ := pr
            have hlt := takeIdent_length rest k rest' ht
            show substTok m k ++ replaceChars m f rest'
              = substTok m k ++ replaceChars m f2' rest'
            rw [ih f2' rest' (by omega) (by omega)]
        · rw [if_neg hc, if_neg hc, ih f2' rest hr1 hr2]

/-! Compositional specification of the substitution, for claim C3. -/

/-- A piece of an input string: literal text without an opening brace, or a
well-formed token `\x7bk\x7d`. -/
inductive SqlPiece where
  | lit : String → SqlPiece
  | tok : String → SqlPiece
deriving DecidableEq

/-- Well-formedness: literals carry no opening brace; token identifiers are
nonempty and consist of `[A-Za-z0-9_]` characters. -/
def pieceWF : SqlPiece → Bool
  | .lit s => s.data.all (fun c => c != '{')
  | .tok k => (!k.data.isEmpty) && k.data.all isIdentChar

/-- The source text of a piece. -/
def renderPiece : SqlPiece → List Char
  | .lit s => s.data
  | .tok k => '{' :: (k.data ++ ['}'])

/-- The source text of a piece list. -/
def renderPieces (ps : List SqlPiece) : List Char :=
  ps.foldr (fun p acc => renderPiece p ++ acc) []

/-- The substituted text of one piece, written from the claim: a token is
replaced by the mapping's value exactly when the key exists and its value is
truthy, and is otherwise left as the original token text; literals are kept. -/
def substPieceSpec (m : Obj) : SqlPiece → List Char
  | .lit s => s.data
  | .tok k =>
      if objHas m k && (jsIndex m k).truthy then (jsIndex m k).toStr.data
      else '{' :: (k.data ++ ['}'])

/-- The substituted text of a piece list, per the claim. -/
def substPiecesSpec (m : Obj) (ps : List SqlPiece) : List Char :=
  ps.foldr (fun p acc => substPieceSpec m p ++ acc) []

theorem takeWhile_ident_append (kd : List Char) (l : List Char)
    (h : ∀ c ∈ kd, isIdentChar c = true) :
    (kd ++ '}' :: l).takeWhile isIdentChar = kd ∧
    (kd ++ '}' :: l).dropWhile isIdentChar = '}' :: l := by
  induction kd with
  | nil =>
    have hb : isIdentChar '}' = false := by decide
    constructor
    · simp [List.takeWhile, hb]
    · simp [List.dropWhile, hb]
  | cons c cs ih =>
    have hc : isIdentChar c = true := h c (List.mem_cons_self c cs)
    have hcs : ∀ x ∈ cs, isIdentChar x = true := fun x hx => h x (List.mem_cons_of_mem c hx)
    obtain ⟨ihtw, ihdw⟩ := ih hcs
    constructor
    · simp [List.takeWhile, hc, ihtw]
    · simp [List.dropWhile, hc, ihdw]

theorem takeIdent_exact (k : String) (l : List Char) (hk1 : k.data ≠ [])
    (hk2 : ∀ c ∈ k.data, isIdentChar c = true) :
    takeIdent (k.data ++ '}' :: l) = some (k, l) := by
  obtain ⟨tw, dw⟩ := takeWhile_ident_append k.data l hk2
  unfold takeIdent
  rw [tw, dw]
  cases hd : k.data with
  | nil => exact absurd hd hk1
  | cons c cs =>
    show some (String.mk (c :: cs), l) = some (k, l)
    rw [← hd]

theorem replaceChars_lit_append (m : Obj) (l1 l2 : List Char)
    (h : ∀ c ∈ l1, ¬(c = '{')) :
    replaceChars m (l1 ++ l2).length (l1 ++ l2) = l1 ++ replaceChars m l2.length l2 := by
  induction l1 with
  | nil => simp
  | cons c l1' ih =>
    have hc : ¬(c = '{') := h c (List.mem_cons_self c l1')
    have hrest : ∀ x ∈ l1', ¬(x = '{') := fun x hx => h x (List.mem_cons_of_mem c hx)
    show replaceChars m ((l1' ++ l2).length + 1) (c :: (l1' ++ l2)) = _
    simp only [replaceChars, if_neg hc]
    rw [ih hrest]
    simp

theorem replaceChars_tok_append (m : Obj) (k : String) (l : List Char)
    (hk1 : k.data ≠ []) (hk2 : ∀ c ∈ k.data, isIdentChar c = true) :
    replaceChars m ('{' :: (k.data ++ '}' :: l)).length ('{' :: (k.data ++ '}' :: l))
      = substTok m k ++ replaceChars m l.length l := by
  have hti := takeIdent_exact k l hk1 hk2
  show replaceChars m ((k.data ++ '}' :: l).length + 1) ('{' :: (k.data ++ '}' :: l)) = _
  simp only [replaceChars, hti, eq_self_iff_true, if_true]
  have hlen : l.length ≤ (k.data ++ '}' :: l).length := by
    simp [List.length_append]
    omega
  rw [replaceChars_irrel m _ l.length l hlen (Nat.le_refl _)]

theorem substPieceSpec_tok_eq_substTok (m : Obj) (k : String) :
    substPieceSpec m (SqlPiece.tok k) = substTok m k := by
  by_cases hhas : objHas m k = true
  · simp [substPieceSpec, substTok, hhas]
  · have hnone : objGet m k = none :=
      objGet_eq_none_of_not_has m k (by simpa using hhas)
    have hundef : jsIndex m k = JSVal.undefined := by simp [jsIndex, hnone]
    simp [substPieceSpec, substTok, hundef, JSVal.truthy, hhas]

theorem replaceChars_pieces (m : Obj) (ps : List SqlPiece)
    (h : ∀ p ∈ ps, pieceWF p = true) :
    replaceChars m (renderPieces ps).length (renderPieces ps) = substPiecesSpec m ps := by
  induction ps with
  | nil => rfl
  | cons p rest ih =>
    have hp : pieceWF p = true := h p (List.mem_cons_self p rest)
    have hrest : ∀ q ∈ rest, pieceWF q = true := fun q hq => h q (List.mem_cons_of_mem p hq)
    cases p with
    | lit s =>
      have hsB : s.data.all (fun c => c != '{') = true := hp
      have hs : ∀ c ∈ s.data, ¬(c = '{') := by
        intro c hc
        have := List.all_eq_true.mp hsB c hc
        simpa using this
      show replaceChars m (s.data ++ renderPieces rest).length (s.data ++ renderPieces rest)
        = s.data ++ substPiecesSpec m rest
      rw [replaceChars_lit_append m s.data (renderPieces rest) hs, ih hrest]
    | tok k =>
      have hk : ((!k.data.isEmpty) && k.data.all isIdentChar) = true := hp
      have hk1 : k.data ≠ [] := by
        have h1 := (Bool.and_eq_true _ _ |>.mp hk).1
        intro hnil
        rw [hnil] at h1
        simp at h1
      have hk2 : ∀ c ∈ k.data, isIdentChar c = true :=
        List.all_eq_true.mp (Bool.and_eq_true _ _ |>.mp hk).2
      have hform : renderPieces (SqlPiece.tok k :: rest)
          = '{' :: (k.data ++ '}' :: renderPieces rest) := by
        show ('{' :: (k.data ++ ['}'])) ++ renderPieces rest = _
        simp
      rw [hform, replaceChars_tok_append m k (renderPieces rest) hk1 hk2, ih hrest]
      show _ = substPieceSpec m (SqlPiece.tok k) ++ substPiecesSpec m rest
      rw [substPieceSpec_tok_eq_substTok]

/-- C3: template substitution replaces each token `\x7bidentifier\x7d` (identifier
nonempty over `[A-Za-z0-9_]`) with the mapping's value exactly when the key
exists and its value is truthy, and otherwise leaves the token text unchanged
(never substituting the empty string), acting piecewise on the input; a null
input line is coerced to the empty string; and substituting the example
`select \x7bA\x7d, \x7bB\x7d` against the mapping A=1 yields `select 1, \x7bB\x7d`. -/
theorem c3_templateSubstitution (m : Obj) (ps : List SqlPiece)
    (h : ps.all pieceWF = true) :
    replaceAllCtx m (String.mk (renderPieces ps)) = String.mk (substPiecesSpec m ps) ∧
    replaceLine m none = "" ∧
    replaceAllCtx [("A", JSVal.str "1")] "select \x7bA\x7d, \x7bB\x7d"
      = "select 1, \x7bB\x7d" := by
  refine ⟨?_, rfl, ?_⟩
  · show String.mk (replaceChars m (renderPieces ps).length (renderPieces ps)) = _
    rw [replaceChars_pieces m ps (List.all_eq_true.mp h)]
  · decide

/-- C3 (witness): the piecewise description instantiated on the example string
decomposed as a literal, token A, a literal, token B, against the mapping A=1. -/
theorem c3_templateSubstitution_witness :
    ([SqlPiece.lit "select ", SqlPiece.tok "A", SqlPiece.lit ", ",
      SqlPiece.tok "B"].all pieceWF = true) ∧
    (replaceAllCtx [("A", JSVal.str "1")]
        (String.mk (renderPieces [SqlPiece.lit "select ", SqlPiece.tok "A",
          SqlPiece.lit ", ", SqlPiece.tok "B"]))
       = String.mk (substPiecesSpec [("A", JSVal.str "1")]
          [SqlPiece.lit "select ", SqlPiece.tok "A", SqlPiece.lit ", ",
           SqlPiece.tok "B"]) ∧
     replaceLine [("A", JSVal.str "1")] none = "" ∧
     replaceAllCtx [("A", JSVal.str "1")] "select \x7bA\x7d, \x7bB\x7d"
       = "select 1, \x7bB\x7d") :=
  ⟨by decide,
   c3_templateSubstitution [("A", JSVal.str "1")]
     [SqlPiece.lit "select ", SqlPiece.tok "A", SqlPiece.lit ", ", SqlPiece.tok "B"]
     (by decide)⟩

/-! The sql executor (lines 28-161 of the source). -/

/-- Lines 34-39: wrap a single command in an array. -/
def toArray : Commands → List (Option String)
  | .single s => [s]
  | .many l => l

/-- JS `String.prototype.trim`: strip leading and trailing whitespace. -/
def jsTrim (s : String) : String :=
  String.mk (((s.data.dropWhile Char.isWhitespace).reverse.dropWhile Char.isWhitespace).reverse)

/-- JS `String.prototype.split` with a one-character separator. -/
def splitOnSemi : List Char → List (List Char)
  | [] => [[]]
  | c :: rest =>
    match splitOnSemi rest with
    | [] => [[]]
    | h :: t => if c = ';' then [] :: h :: t else (c :: h) :: t

/-- JS `Array.prototype.join` with a semicolon separator. -/
def joinSemi : List String → String
  | [] => ""
  | [s] => s
  | s :: rest => s ++ ";" ++ joinSemi rest

/-- Lines 101-103: the filter predicate `entry && entry.trim().length > 0`:
null, empty and whitespace-only entries are dropped. -/
def keepEntry : Option String → Bool
  | none => false
  | some s => jsTrim s != ""

/-- Lines 100-103: `actualCommands`, the surviving entries as strings. -/
def actualCommands (commands : Commands) : List String :=
  ((toArray commands).filter keepEntry).map (fun e => e.getD "")

/-- Lines 72-83: `splitSql`. The external parser round-trip
`parser.sqlify(parser.astify(s))` is the oracle `normalize`; the in-repo part
splits on semicolons, trims each line and drops empty lines. -/
def splitSql (normalize : String → String) (statements : String) : List String :=
  (((splitOnSemi (normalize statements).data).map (fun line => jsTrim (String.mk line))).filter
    (fun line => line != ""))

/-- Lines 64-66: prepend the directory of the test path to a trimmed filename. -/
def getFullFilename (pathDir : String) (filename : String) : String :=
  pathDir ++ "/" ++ jsTrim filename

/-- Lines 85-98: a group of split statements tagged with its provenance. -/
structure SqlStatementGroup where
  statements : List String
  filename : String
deriving DecidableEq

/-- Lines 91-98: `fetchSql` reads a file (the oracle `readFile`), substitutes
the context into its whole text, splits it, and tags the group with the
filename. -/
def fetchSql (normalize readFile : String → String) (m : Obj)
    (filename : String) : SqlStatementGroup :=
  let fileContents := readFile filename
  let modifiedContents := (replaceWithContext m [some fileContents]).headD ""
  { statements := splitSql normalize modifiedContents, filename := filename }

/-- Lines 105-123: build the statement groups: one group per surviving file in
array order when `treatAsFiles`, else a single `raw input` group of the
substituted entries joined with semicolons. -/
def buildSqlStatements (normalize readFile : String → String) (m : Obj)
    (pathDir : String) (treatAsFiles : Bool) (commands : Commands) :
    List SqlStatementGroup :=
  if treatAsFiles then
    (actualCommands commands).map
      (fun filename => fetchSql normalize readFile m (getFullFilename pathDir filename))
  else
    [{ statements := splitSql normalize
          (joinSemi (replaceWithContext m ((actualCommands commands).map some))),
       filename := "raw input" }]

/-- Line 156: the annotated message of a failed statement. -/
def annotateMsg (statement filename msg : String) : String :=
  "Error executing sql \"" ++ statement ++ "\" from " ++ filename ++ ": " ++ msg

/-- Inner loop of lines 146-153 for one group: run statements in order against
the channel oracle (`none` = success, `some msg` = driver failure message),
stopping at the first failure; returns the attempted statements and, on
failure, the failing statement, its provenance and the raw message. -/
def runGroup (oracle : String → Option String) (fn : String) :
    List String → List String × Option (String × String × String)
  | [] => ([], none)
  | s :: rest =>
    match oracle s with
    | none =>
        let r := runGroup oracle fn rest
        (s :: r.1, r.2)
    | some msg => ([s], some (s, fn, msg))

/-- Outer loop of lines 146-153: groups in order, halting at the first failure. -/
def runLoop (oracle : String → Option String) :
    List SqlStatementGroup → List String × Option (String × String × String)
  | [] => ([], none)
  | g :: gs =>
    let r := runGroup oracle g.filename g.statements
    match r.2 with
    | none =>
        let r2 := runLoop oracle gs
        (r.1 ++ r2.1, r2.2)
    | some info => (r.1, some info)

deriving instance DecidableEq for Except

/-- Observable outcome of one `executeSql` call: the statements issued to the
channel in order, how many times `db.$disconnect` ran, and the settled result. -/
structure ExecTrace where
  executed : List String
  disconnects : Nat
  result : Except String Unit
deriving DecidableEq

/-- Lines 28-161: `executeSql`. Zero statements returns before the try/finally
(line 135-138), so no channel call and no disconnect; otherwise the loop runs
under try/catch/finally: first failure annotates and re-raises, and the
disconnect of line 159 runs exactly once either way. -/
def executeSql (normalize readFile : String → String) (oracle : String → Option String)
    (contextMap : Obj) (commands : Commands) (pathDir : String) (treatAsFiles : Bool) :
    ExecTrace :=
  let sqlStatements := buildSqlStatements normalize readFile contextMap pathDir treatAsFiles commands
  let statementCount :=
    (sqlStatements.map (fun g => g.statements.length)).foldl (fun total len => total + len) 0
  if statementCount = 0 then
    { executed := [], disconnects := 0, result := Except.ok () }
  else
    match runLoop oracle sqlStatements with
    | (ex, none) => { executed := ex, disconnects := 1, result := Except.ok () }
    | (ex, some (st, fn, msg)) =>
        { executed := ex, disconnects := 1, result := Except.error (annotateMsg st fn msg) }

/-- Flattened (statement, provenance) pairs of the groups, in execution order. -/
def flatPairs (groups : List SqlStatementGroup) : List (String × String) :=
  groups.foldr (fun g acc => g.statements.map (fun s => (s, g.filename)) ++ acc) []

/-- Run the flattened pairs sequentially, halting at the first failure. -/
def runFlat (oracle : String → Option String) :
    List (String × String) → List String × Option (String × String × String)
  | [] => ([], none)
  | (s, fn) :: rest =>
    match oracle s with
    | none =>
        let r := runFlat oracle rest
        (s :: r.1, r.2)
    | some msg => ([s], some (s, fn, msg))

/-! Relating the nested group loop to the flattened statement sequence. -/

theorem runGroup_eq_runFlat (oracle : String → Option String) (fn : String)
    (sts : List String) :
    runGroup oracle fn sts = runFlat oracle (sts.map (fun s => (s, fn))) := by
  induction sts with
  | nil => rfl
  | cons s rest ih =>
    simp only [runGroup, List.map_cons, runFlat]
    cases ho : oracle s with
    | none => simp [ih]
    | some msg => rfl

theorem runFlat_all_ok (oracle : String → Option String) (l : List (String × String))
    (h : ∀ p ∈ l, oracle p.1 = none) :
    runFlat oracle l = (l.map (fun p => p.1), none) := by
  induction l with
  | nil => rfl
  | cons p rest ih =>
    obtain ⟨s, fn⟩ := p
    have hs : oracle s = none := h (s, fn) (List.mem_cons_self _ _)
    have hrest : ∀ q ∈ rest, oracle q.1 = none := fun q hq => h q (List.mem_cons_of_mem _ hq)
    simp only [runFlat, hs, ih hrest, List.map_cons]

theorem runFlat_fail_point (oracle : String → Option String)
    (pre : List (String × String)) (s fn msg : String) (post : List (String × String))
    (hpre : ∀ p ∈ pre, oracle p.1 = none) (hfail : oracle s = some msg) :
    runFlat oracle (pre ++ (s, fn) :: post)
      = (pre.map (fun p => p.1) ++ [s], some (s, fn, msg)) := by
  induction pre with
  | nil => simp [runFlat, hfail]
  | cons p pre' ih =>
    obtain ⟨s0, fn0⟩ := p
    have hs0 : oracle s0 = none := hpre (s0, fn0) (List.mem_cons_self _ _)
    have hpre' : ∀ q ∈ pre', oracle q.1 = none := fun q hq => hpre q (List.mem_cons_of_mem _ hq)
    simp [runFlat, hs0, ih hpre']

theorem runFlat_append (oracle : String → Option String) (l1 l2 : List (String × String)) :
    runFlat oracle (l1 ++ l2)
      = (match runFlat oracle l1 with
         | (ex, none) => (ex ++ (runFlat oracle l2).1, (runFlat oracle l2).2)
         | (ex, some i) => (ex, some i)) := by
  induction l1 with
  | nil => simp [runFlat]
  | cons p l1' ih =>
    obtain ⟨s0, fn0⟩ := p
    cases ho : oracle s0 with
    | some msg =>
      have hcons : runFlat oracle ((s0, fn0) :: l1') = ([s0], some (s0, fn0, msg)) := by
        simp [runFlat, ho]
      show runFlat oracle ((s0, fn0) :: (l1' ++ l2)) = _
      rw [hcons]
      simp [runFlat, ho]
    | none =>
      have hcons : runFlat oracle ((s0, fn0) :: l1')
          = (s0 :: (runFlat oracle l1').1, (runFlat oracle l1').2) := by
        simp [runFlat, ho]
      show runFlat oracle ((s0, fn0) :: (l1' ++ l2)) = _
      rw [hcons]
      simp only [runFlat, ho, ih]
      cases hr : runFlat oracle l1' with
      | mk ex f =>
        cases f with
        | none => simp
        | some i => simp

theorem runLoop_eq_runFlat (oracle : String → Option String)
    (gs : List SqlStatementGroup) :
    runLoop oracle gs = runFlat oracle (flatPairs gs) := by
  induction gs with
  | nil => rfl
  | cons g rest ih =>
    have hflat : flatPairs (g :: rest)
        = g.statements.map (fun s => (s, g.filename)) ++ flatPairs rest := rfl
    rw [hflat, runFlat_append]
    show (match (runGroup oracle g.filename g.statements).2 with
          | none =>
            ((runGroup oracle g.filename g.statements).1 ++ (runLoop oracle rest).1,
             (runLoop oracle rest).2)
          | some info => ((runGroup oracle g.filename g.statements).1, some info)) = _
    rw [runGroup_eq_runFlat oracle g.filename g.statements, ih]
    cases hr : runFlat oracle (g.statements.map (fun s => (s, g.filename))) with
    | mk ex f =>
      cases f with
      | none => simp
      | some i => simp

theorem foldl_add_eq_sum (l : List Nat) (n : Nat) :
    l.foldl (fun total len => total + len) n = n + l.sum := by
  induction l generalizing n with
  | nil => simp
  | cons a rest ih =>
    simp only [List.foldl, List.sum_cons, ih]
    omega

theorem statementCount_eq_flat_length (gs : List SqlStatementGroup) :
    (gs.map (fun g => g.statements.length)).foldl (fun total len => total + len) 0
      = (flatPairs gs).length := by
  rw [foldl_add_eq_sum]
  simp only [Nat.zero_add]
  induction gs with
  | nil => rfl
  | cons g rest ih =>
    have hf : flatPairs (g :: rest)
        = g.statements.map (fun s => (s, g.filename)) ++ flatPairs rest := rfl
    rw [List.map_cons, List.sum_cons, hf, List.length_append, List.length_map, ih]

/-- C4: when the statement at some position of the flattened execution sequence
is the first to fail, the executor issues exactly the statements up to and
including it (nothing after, in any group), the settled result is the same
failure with the message rewritten to name the exact statement text and its
provenance label, and the connection is released exactly once. -/
theorem c4_failureHaltsAnnotatesReleasesOnce (normalize readFile : String → String)
    (oracle : String → Option String) (m : Obj) (commands : Commands)
    (pathDir : String) (treatAsFiles : Bool)
    (pre : List (String × String)) (s fn msg : String) (post : List (String × String))
    (hflat : flatPairs (buildSqlStatements normalize readFile m pathDir treatAsFiles commands)
        = pre ++ (s, fn) :: post)
    (hpre : ∀ p ∈ pre, oracle p.1 = none)
    (hfail : oracle s = some msg) :
    executeSql normalize readFile oracle m commands pathDir treatAsFiles
      = { executed := pre.map (fun p => p.1) ++ [s], disconnects := 1,
          result := Except.error (annotateMsg s fn msg) } := by
  simp only [executeSql]
  rw [statementCount_eq_flat_length, runLoop_eq_runFlat, hflat,
    runFlat_fail_point oracle pre s fn msg post hpre hfail]
  rw [if_neg (by simp)]

/-- C4 (witness): a concrete raw-input call where the second of three
statements fails: the third is never issued, the message is annotated, the
connection released once. -/
theorem c4_failureHaltsAnnotatesReleasesOnce_witness :
    (flatPairs (buildSqlStatements id (fun _ => "") [] "" false
        (Commands.many [some "ok; bad; never"]))
      = [("ok", "raw input")] ++ ("bad", "raw input") :: [("never", "raw input")]) ∧
    (∀ p ∈ [(("ok" : String), ("raw input" : String))],
      (fun st => if st = "bad" then some "boom" else none) p.1 = none) ∧
    ((fun st => if st = "bad" then some "boom" else none) "bad" = some "boom") ∧
    executeSql id (fun _ => "") (fun st => if st = "bad" then some "boom" else none)
        [] (Commands.many [some "ok; bad; never"]) "" false
      = { executed := [("ok", "raw input")].map (fun p => p.1) ++ ["bad"], disconnects := 1,
          result := Except.error (annotateMsg "bad" "raw input" "boom") } :=
  ⟨by decide, by decide, by decide,
   c4_failureHaltsAnnotatesReleasesOnce id (fun _ => "")
     (fun st => if st = "bad" then some "boom" else none) [] (Commands.many [some "ok; bad; never"])
     "" false [("ok", "raw input")] "bad" "raw input" "boom" [("never", "raw input")]
     (by decide) (by decide) (by decide)⟩

/-- C8: null, empty and whitespace-only source entries are discarded before any
processing (the trace of a call equals the trace on the pre-filtered list), and
a call whose groups hold zero statements in total returns silently: no channel
call, no disconnect, success. -/
theorem c8_blanksDiscardedAndZeroIsNoop (normalize readFile : String → String)
    (oracle : String → Option String) (m : Obj) (pathDir : String) (t : Bool) :
    (∀ l : List (Option String),
      executeSql normalize readFile oracle m (Commands.many l) pathDir t
        = executeSql normalize readFile oracle m (Commands.many (l.filter keepEntry)) pathDir t) ∧
    (∀ commands : Commands,
      (flatPairs (buildSqlStatements normalize readFile m pathDir t commands)).length = 0 →
      executeSql normalize readFile oracle m commands pathDir t
        = { executed := [], disconnects := 0, result := Except.ok () }) := by
  constructor
  · intro l
    have hidem : (l.filter keepEntry).filter keepEntry = l.filter keepEntry := by
      induction l with
      | nil => rfl
      | cons e rest ih => cases he : keepEntry e <;> simp [List.filter_cons, he, ih]
    have hac : actualCommands (Commands.many (l.filter keepEntry))
        = actualCommands (Commands.many l) := by
      unfold actualCommands toArray
      rw [hidem]
    have hbuild : buildSqlStatements normalize readFile m pathDir t (Commands.many (l.filter keepEntry))
        = buildSqlStatements normalize readFile m pathDir t (Commands.many l) := by
      unfold buildSqlStatements
      rw [hac]
    simp only [executeSql]
    rw [hbuild]
  · intro commands hzero
    simp only [executeSql]
    rw [statementCount_eq_flat_length, if_pos hzero]

/-- C8 (witness): the filtering invariance and zero-statement no-op applied to
a list of one whitespace-only entry and one null entry. -/
theorem c8_blanksDiscardedAndZeroIsNoop_witness :
    (executeSql id (fun _ => "") (fun _ => none) [] (Commands.many [some "  ", none]) "" false
       = executeSql id (fun _ => "") (fun _ => none) []
           (Commands.many (([some "  ", none] : List (Option String)).filter keepEntry)) "" false) ∧
    ((flatPairs (buildSqlStatements id (fun _ => "") [] "" false
        (Commands.many [some "  ", none]))).length = 0 ∧
     executeSql id (fun _ => "") (fun _ => none) [] (Commands.many [some "  ", none]) "" false
       = { executed := [], disconnects := 0, result := Except.ok () }) :=
  ⟨(c8_blanksDiscardedAndZeroIsNoop id (fun _ => "") (fun _ => none) [] "" false).1
      [some "  ", none],
   by decide,
   (c8_blanksDiscardedAndZeroIsNoop id (fun _ => "") (fun _ => none) [] "" false).2
      (Commands.many [some "  ", none]) (by decide)⟩

/-- C9: with `treatAsFiles` true there is exactly one statement group per
surviving file entry, in array order with the resolved filename of that entry,
and when no statement fails the executed sequence is exactly the flattened
statements in group order then within-group order. -/
theorem c9_fileGroupsOrderedSequential (normalize readFile : String → String)
    (oracle : String → Option String) (m : Obj) (pathDir : String) (commands : Commands) :
    (buildSqlStatements normalize readFile m pathDir true commands).length
      = (actualCommands commands).length ∧
    (buildSqlStatements normalize readFile m pathDir true commands).map (fun g => g.filename)
      = (actualCommands commands).map (fun f => getFullFilename pathDir f) ∧
    ((∀ p ∈ flatPairs (buildSqlStatements normalize readFile m pathDir true commands),
        oracle p.1 = none) →
      (executeSql normalize readFile oracle m commands pathDir true).executed
        = (flatPairs (buildSqlStatements normalize readFile m pathDir true commands)).map
            (fun p => p.1)) := by
  refine ⟨by simp [buildSqlStatements], ?_, ?_⟩
  · show ((actualCommands commands).map
        (fun filename => fetchSql normalize readFile m (getFullFilename pathDir filename))).map
          (fun g => g.filename) = _
    rw [List.map_map]
    rfl
  · intro hok
    simp only [executeSql]
    rw [statementCount_eq_flat_length]
    by_cases hz : (flatPairs (buildSqlStatements normalize readFile m pathDir true commands)).length = 0
    · rw [if_pos hz]
      rw [List.eq_nil_of_length_eq_zero hz]
      rfl
    · rw [if_neg hz, runLoop_eq_runFlat, runFlat_all_ok oracle _ hok]

/-- C9 (witness): two files of two statements each, executed in file order then
statement order. -/
theorem c9_fileGroupsOrderedSequential_witness :
    ((buildSqlStatements id (fun f => if f = "d/a" then "a1; a2" else "b1; b2") [] "d" true
        (Commands.many [some "a", some " b "])).length
      = (actualCommands (Commands.many [some "a", some " b "])).length ∧
     (buildSqlStatements id (fun f => if f = "d/a" then "a1; a2" else "b1; b2") [] "d" true
        (Commands.many [some "a", some " b "])).map (fun g => g.filename)
      = (actualCommands (Commands.many [some "a", some " b "])).map
          (fun f => getFullFilename "d" f) ∧
     ((∀ p ∈ flatPairs (buildSqlStatements id
          (fun f => if f = "d/a" then "a1; a2" else "b1; b2") [] "d" true
          (Commands.many [some "a", some " b "])),
        (fun (_ : String) => (none : Option String)) p.1 = none) →
      (executeSql id (fun f => if f = "d/a" then "a1; a2" else "b1; b2")
          (fun _ => none) [] (Commands.many [some "a", some " b "]) "d" true).executed
        = (flatPairs (buildSqlStatements id
            (fun f => if f = "d/a" then "a1; a2" else "b1; b2") [] "d" true
            (Commands.many [some "a", some " b "]))).map (fun p => p.1))) ∧
    (executeSql id (fun f => if f = "d/a" then "a1; a2" else "b1; b2")
        (fun _ => none) [] (Commands.many [some "a", some " b "]) "d" true).executed
      = (flatPairs (buildSqlStatements id
          (fun f => if f = "d/a" then "a1; a2" else "b1; b2") [] "d" true
          (Commands.many [some "a", some " b "]))).map (fun p => p.1) :=
  ⟨c9_fileGroupsOrderedSequential id (fun f => if f = "d/a" then "a1; a2" else "b1; b2")
     (fun _ => none) [] "d" (Commands.many [some "a", some " b "]),
   (c9_fileGroupsOrderedSequential id (fun f => if f = "d/a" then "a1; a2" else "b1; b2")
     (fun _ => none) [] "d" (Commands.many [some "a", some " b "])).2.2 (by decide)⟩

/-- C10: the connection release of the finally block runs exactly once when the
total statement count is nonzero, success or failure alike, and never runs when
the count is zero, because the zero-statement return exits before try/finally. -/
theorem c10_disconnectExactlyOnceUnlessEmpty (normalize readFile : String → String)
    (oracle : String → Option String) (m : Obj) (commands : Commands)
    (pathDir : String) (t : Bool) :
    (executeSql normalize readFile oracle m commands pathDir t).disconnects
      = if (flatPairs (buildSqlStatements normalize readFile m pathDir t commands)).length = 0
        then 0 else 1 := by
  simp only [executeSql]
  rw [statementCount_eq_flat_length]
  by_cases hz : (flatPairs (buildSqlStatements normalize readFile m pathDir t commands)).length = 0
  · rw [if_pos hz, if_pos hz]
  · rw [if_neg hz, if_neg hz]
    cases hr : runLoop oracle (buildSqlStatements normalize readFile m pathDir t commands) with
    | mk ex f =>
      cases f with
      | none => rfl
      | some i =>
        obtain ⟨st, fn, msg⟩ := i
        rfl

/-! Control flow of the generated test body (lines 205-218 of the source). -/

/-- Observable outcome of one generated test body: how many times the wrapped
body and the teardown execution ran, and the settled result. -/
structure ScenarioTrace (A : Type) where
  bodyRuns : Nat
  teardownRuns : Nat
  outcome : Except String A
deriving DecidableEq

/-- Lines 205-218: the async test body. Setup runs at line 207 outside any
try/catch, so its failure propagates with nothing else run; the wrapped body
runs inside try (line 212) with the teardown in the finally block (line 215);
per JS semantics a failure thrown by the finally block replaces whatever
outcome was in flight, otherwise the body's outcome (result or error)
propagates after teardown completes. -/
def runScenarioBody (A : Type) (setup : Except String Unit) (body : Except String A)
    (teardown : Except String Unit) : ScenarioTrace A :=
  match setup with
  | .error e => { bodyRuns := 0, teardownRuns := 0, outcome := .error e }
  | .ok _ =>
      { bodyRuns := 1, teardownRuns := 1,
        outcome :=
          match teardown with
          | .error te => .error te
          | .ok _ => body }

/-- Lines 205-218 wired to the executor: setup and teardown are `executeSql`
calls on the dispatched context map and sql arguments. -/
def sqlScenarioTestBody (A : Type) (normalize readFile : String → String)
    (oracle : String → Option String) (reg : TestReg) (pathDir : String)
    (treatAsFiles : Bool) (body : Except String A) : ScenarioTrace A :=
  runScenarioBody A
    (executeSql normalize readFile oracle reg.contextMap reg.sqlSetup pathDir treatAsFiles).result
    body
    (executeSql normalize readFile oracle reg.contextMap reg.sqlTeardown pathDir treatAsFiles).result

/-- C5: after a successful setup, teardown runs exactly once however the body
settles; if the body failed and teardown succeeds, the body's original error is
re-raised after teardown; if teardown fails, the teardown failure is the one
that propagates, even over a body failure; on success the body's own result is
returned. -/
theorem c5_teardownOnceAndErrorPrecedence (A : Type) (body : Except String A)
    (teardown : Except String Unit) :
    (runScenarioBody A (Except.ok ()) body teardown).teardownRuns = 1 ∧
    (runScenarioBody A (Except.ok ()) body teardown).bodyRuns = 1 ∧
    (∀ a, body = Except.ok a → teardown = Except.ok () →
      (runScenarioBody A (Except.ok ()) body teardown).outcome = Except.ok a) ∧
    (∀ be, body = Except.error be → teardown = Except.ok () →
      (runScenarioBody A (Except.ok ()) body teardown).outcome = Except.error be) ∧
    (∀ te, teardown = Except.error te →
      (runScenarioBody A (Except.ok ()) body teardown).outcome = Except.error te) := by
  refine ⟨rfl, rfl, ?_, ?_, ?_⟩
  · intro a hb ht
    subst hb
    subst ht
    rfl
  · intro be hb ht
    subst hb
    subst ht
    rfl
  · intro te ht
    subst ht
    rfl

/-- C5 (witness): the teardown-once and error-precedence facts at a concrete
failing body and failing teardown. -/
theorem c5_teardownOnceAndErrorPrecedence_witness :
    (runScenarioBody Nat (Except.ok ()) (Except.error "body failed")
        (Except.error "teardown failed")).teardownRuns = 1 ∧
    (runScenarioBody Nat (Except.ok ()) (Except.error "body failed")
        (Except.error "teardown failed")).bodyRuns = 1 ∧
    (∀ a, Except.error "body failed" = Except.ok a →
        Except.error "teardown failed" = Except.ok () →
      (runScenarioBody Nat (Except.ok ()) (Except.error "body failed")
        (Except.error "teardown failed")).outcome = Except.ok a) ∧
    (∀ be, (Except.error "body failed" : Except String Nat) = Except.error be →
        Except.error "teardown failed" = Except.ok () →
      (runScenarioBody Nat (Except.ok ()) (Except.error "body failed")
        (Except.error "teardown failed")).outcome = Except.error be) ∧
    (∀ te, (Except.error "teardown failed" : Except String Unit) = Except.error te →
      (runScenarioBody Nat (Except.ok ()) (Except.error "body failed")
        (Except.error "teardown failed")).outcome = Except.error te) ∧
    (runScenarioBody Nat (Except.ok ()) (Except.error "body failed")
        (Except.error "teardown failed")).outcome = Except.error "teardown failed" :=
  ⟨(c5_teardownOnceAndErrorPrecedence Nat (Except.error "body failed")
      (Except.error "teardown failed")).1,
   (c5_teardownOnceAndErrorPrecedence Nat (Except.error "body failed")
      (Except.error "teardown failed")).2.1,
   (c5_teardownOnceAndErrorPrecedence Nat (Except.error "body failed")
      (Except.error "teardown failed")).2.2.1,
   (c5_teardownOnceAndErrorPrecedence Nat (Except.error "body failed")
      (Except.error "teardown failed")).2.2.2.1,
   (c5_teardownOnceAndErrorPrecedence Nat (Except.error "body failed")
      (Except.error "teardown failed")).2.2.2.2,
   (c5_teardownOnceAndErrorPrecedence Nat (Except.error "body failed")
      (Except.error "teardown failed")).2.2.2.2 "teardown failed" rfl⟩

/-- C6: a setup failure propagates as is, and neither the wrapped body nor the
teardown is ever invoked: setup runs before the body, outside the
guaranteed-cleanup scope. -/
theorem c6_setupFailureSkipsBodyAndTeardown (A : Type) (se : String)
    (body : Except String A) (teardown : Except String Unit) :
    runScenarioBody A (Except.error se) body teardown
      = { bodyRuns := 0, teardownRuns := 0, outcome := Except.error se } := rfl
